import Mathlib

/-!
Grafana Cloud plugin installation resource.

A shallow embedding of `grafana/resource_cloud_plugin.go`: the schema declaration
`ResourceCloudPluginInstallation` and the three callbacks
`resourceCloudPluginInstallationCreate`, `resourceCloudPluginInstallationRead` and
`resourceCloudPluginInstallationDelete`, together with the library functions they call
(`strings.SplitN`, `strings.HasPrefix`, `diag.FromErr`, the `schema.ResourceData` accessors
and `schema.ImportStatePassthroughContext`).

Modelling conventions.

* A Go `string` is a Lean `String`, and positions count characters.  Go strings are byte
  sequences; the only separator and the only prefix this file searches for (`"_"` and
  `"status: 404"`) are ASCII, and an ASCII byte never occurs inside a multi-byte UTF-8
  sequence, so on UTF-8 text the character-level search finds the same places.
* A Go `error` value is `Option error`: `none` is `nil`.
* `*schema.ResourceData` is mutated in place by the callbacks; here every callback returns a
  `Run` record holding the resource data after the call, the client calls it made (in order),
  the lines it logged, and how it ended (a returned `diag.Diagnostics` or a run-time panic).
* The API client (`meta.(*client).gcloudapi`) is an external collaborator: it is a parameter,
  a record of three functions giving the answer of each method.
-/

/-! ## Go `strings` -/

namespace strings

/-- Character position of the first occurrence of `sep` in `s`, `none` when there is none
(Go `strings.Index`, which returns `-1` for "not found"). -/
def indexL (sep : List Char) : List Char → Option Nat
  | [] => if sep.isEmpty then some 0 else none
  | c :: cs => if sep.isPrefixOf (c :: cs) then some 0 else (indexL sep cs).map (· + 1)

/-- Go `strings.Index`. -/
def Index (s substr : String) : Option Nat :=
  indexL substr.data s.data

/-- The loop of Go `strings.Count`: the number of non-overlapping occurrences of `sep` in
`s`.  Go enters the loop with a non-empty `sep` only (`Count` answers the empty one before
it); the test on the length of `sep` stands for that and makes every step consume text. -/
def countL (sep : List Char) (s : List Char) : Nat :=
  match h : indexL sep s with
  | none => 0
  | some i =>
    if hs : sep.length = 0 then 0
    else 1 + countL sep (s.drop (i + sep.length))
termination_by s.length
decreasing_by
  have inside : ∀ (t : List Char) (j : Nat), indexL sep t = some j → j + sep.length ≤ t.length := by
    intro t
    induction t with
    | nil =>
      intro j hj
      cases sep with
      | nil => simp at hs
      | cons a l => simp [indexL] at hj
    | cons c cs ih =>
      intro j hj
      unfold indexL at hj
      split at hj
      · rename_i hp
        have hlen := (List.isPrefixOf_iff_prefix.mp hp).length_le
        simp only [Option.some.injEq] at hj
        omega
      · cases hk : indexL sep cs with
        | none => simp [hk] at hj
        | some k =>
          simp only [hk, Option.map_some', Option.some.injEq] at hj
          have := ih k hk
          simp only [List.length_cons]
          omega
  have hle := inside s i h
  simp only [List.length_drop]
  omega

/-- Go `strings.Count`. -/
def Count (s substr : String) : Nat :=
  if substr.data.length = 0 then s.data.length + 1
  else countL substr.data s.data

/-- The loop of Go `strings.explode`: `k` single-character pieces, then the remainder. -/
def explodeLoop : Nat → List Char → List (List Char)
  | 0, s => [s]
  | k + 1, [] => [Char.ofNat 0xFFFD] :: explodeLoop k []
  | k + 1, c :: cs => [c] :: explodeLoop k cs

/-- Go `strings.explode`: splits `s` into characters, at most `n` pieces (`n < 0`: all). -/
def explode (s : String) (n : Int) : List String :=
  let l : Int := s.data.length
  let n := if n < 0 ∨ n > l then l else n
  if n > 0 then (explodeLoop (n - 1).toNat s.data).map String.mk else []

/-- The loop of Go `strings.genSplit`: at most `k` cuts at successive occurrences of `sep`,
each piece keeping `sepSave` characters of the separator, the last piece the remainder. -/
def genSplitLoop (sep : List Char) (sepSave : Nat) : Nat → List Char → List (List Char)
  | 0, s => [s]
  | k + 1, s =>
    match indexL sep s with
    | none => [s]
    | some m => s.take (m + sepSave) :: genSplitLoop sep sepSave k (s.drop (m + sep.length))

/-- Go `strings.genSplit`. -/
def genSplit (s sep : String) (sepSave : Nat) (n : Int) : List String :=
  if n = 0 then []
  else if sep = "" then explode s n
  else
    let n : Int := if n < 0 then (Count s sep : Int) + 1 else n
    let n : Int := if n > (s.utf8ByteSize : Int) + 1 then (s.utf8ByteSize : Int) + 1 else n
    (genSplitLoop sep.data sepSave (n - 1).toNat s.data).map String.mk

/-- Go `strings.SplitN`: `genSplit(s, sep, 0, n)`. -/
def SplitN (s sep : String) (n : Int) : List String :=
  genSplit s sep 0 n

/-- Go `strings.HasPrefix`: `len(s) >= len(p) && s[:len(p)] == p`. -/
def HasPrefix (s pre : String) : Bool :=
  decide (s.data.length ≥ pre.data.length) && decide (s.data.take pre.data.length = pre.data)

end strings

/-! ## Go `error`, and `diag` of the Terraform plugin SDK -/

/-- A non-nil Go `error`: a value with an `Error() string` method.  `Option error` is the Go
type `error`, `none` being `nil`. -/
structure error where
  /-- The message, Go `err.Error()`. -/
  Error : String
  deriving DecidableEq, Repr

namespace diag

/-- SDK `diag.Severity`. -/
inductive Severity where
  | Error
  | Warning
  deriving DecidableEq, Repr

/-- SDK `diag.Diagnostic` (the attribute path, never set here, is left out). -/
structure Diagnostic where
  /-- Severity of the diagnostic. -/
  Severity : diag.Severity
  /-- Short description. -/
  Summary : String
  /-- Long description. -/
  Detail : String
  deriving DecidableEq, Repr

/-- SDK `diag.Diagnostics`; Go `nil` is the empty list. -/
abbrev Diagnostics := List Diagnostic

/-- SDK `diag.FromErr`: `nil` for a nil error, else one error diagnostic whose summary is
`err.Error()`. -/
def FromErr (err : Option error) : Diagnostics :=
  match err with
  | none => []
  | some e => [{ Severity := Severity.Error, Summary := e.Error, Detail := "" }]

end diag

/-! ## The Grafana Cloud API client -/

/-- Response of the client (`gapi.CloudPluginInstallation`). -/
structure CloudPluginInstallation where
  /-- Installation id. -/
  ID : Int
  /-- Stack id. -/
  InstanceID : Int
  /-- Stack URL. -/
  InstanceURL : String
  /-- Stack slug. -/
  InstanceSlug : String
  /-- Plugin id. -/
  PluginID : Int
  /-- Plugin slug. -/
  PluginSlug : String
  /-- Installed version. -/
  Version : String
  deriving DecidableEq, Repr

/-- The three client methods the resource calls.  A method returning
`(*CloudPluginInstallation, error)` answers with a pair of a possibly nil pointer and a
possibly nil error. -/
structure Client where
  /-- Installs version `version` of plugin `pluginSlug` on stack `stackSlug`. -/
  InstallCloudPlugin : String → String → String → Option CloudPluginInstallation × Option error
  /-- Fetches the installation of plugin `pluginSlug` on stack `stackSlug`. -/
  GetCloudPluginInstallation : String → String → Option CloudPluginInstallation × Option error
  /-- Uninstalls plugin `pluginSlug` from stack `stackSlug`. -/
  UninstallCloudPlugin : String → String → Option error

/-- One call on the client, with its arguments in order. -/
inductive Call where
  | InstallCloudPlugin (stackSlug pluginSlug pluginVersion : String)
  | GetCloudPluginInstallation (stackSlug pluginSlug : String)
  | UninstallCloudPlugin (stackSlug pluginSlug : String)
  deriving DecidableEq, Repr

/-! ## `schema` of the Terraform plugin SDK -/

namespace schema

/-- SDK `schema.ValueType`. -/
inductive ValueType where
  | TypeInvalid
  | TypeBool
  | TypeInt
  | TypeFloat
  | TypeString
  | TypeList
  | TypeMap
  | TypeSet
  deriving DecidableEq, Repr

/-- SDK `schema.Schema`, with the fields the resource sets. -/
structure Schema where
  /-- Documentation of the field. -/
  Description : String
  /-- Type of the field (Go `Type`, a reserved word here). -/
  Type_ : ValueType
  /-- Whether the field must be set in the configuration. -/
  Required : Bool
  /-- Whether a change of the field replaces the resource. -/
  ForceNew : Bool
  deriving DecidableEq, Repr

/-- SDK `schema.ResourceData`: the resource id and the value of each field.  Every field of
this resource is a `TypeString`, so a value is a string, `""` while unset. -/
structure ResourceData where
  /-- The resource id; empty means the resource is absent from the state. -/
  id : String
  /-- Field values by key. -/
  attrs : String → String

/-- SDK `d.Id()`. -/
def ResourceData.Id (d : ResourceData) : String :=
  d.id

/-- SDK `d.SetId(v)`. -/
def ResourceData.SetId (d : ResourceData) (v : String) : ResourceData :=
  { d with id := v }

/-- SDK `d.Get(key).(string)`. -/
def ResourceData.Get (d : ResourceData) (key : String) : String :=
  d.attrs key

/-- SDK `d.Set(key, value)`. -/
def ResourceData.Set (d : ResourceData) (key value : String) : ResourceData :=
  { d with attrs := fun k => if k = key then value else d.attrs k }

/-- SDK `schema.ImportStatePassthroughContext`: the resource data carrying the id given to
the import command, as it is, and no error. -/
def ImportStatePassthroughContext (d : ResourceData) : List ResourceData × Option error :=
  ([d], none)

end schema

/-! ## Outcome of a callback -/

/-- Go run-time panics the callbacks can raise. -/
inductive Panic where
  | indexOutOfRange (index length : Nat)
  | nilPointerDereference
  deriving DecidableEq, Repr

/-- How a callback ends. -/
inductive Ret where
  | returned (diags : diag.Diagnostics)
  | panicked (p : Panic)
  deriving DecidableEq, Repr

/-- What running a callback did. -/
structure Run where
  /-- The resource data after the call. -/
  d : schema.ResourceData
  /-- The client calls made, in order. -/
  calls : List Call
  /-- The lines written with `log.Printf`, in order. -/
  logs : List String
  /-- How the call ended. -/
  ret : Ret

namespace schema

/-- SDK `schema.ResourceImporter`. -/
structure ResourceImporter where
  /-- The import callback. -/
  StateContext : ResourceData → List ResourceData × Option error

/-- SDK `schema.Resource`, with the fields the resource sets.  A callback takes the resource
data and the provider meta value (here the API client); the context argument is unused. -/
structure Resource where
  /-- Documentation of the resource. -/
  Description : String
  /-- The fields, by key. -/
  Schema : List (String × Schema)
  /-- Create callback. -/
  CreateContext : Option (ResourceData → Client → Run)
  /-- Read callback. -/
  ReadContext : Option (ResourceData → Client → Run)
  /-- Update callback. -/
  UpdateContext : Option (ResourceData → Client → Run)
  /-- Delete callback. -/
  DeleteContext : Option (ResourceData → Client → Run)
  /-- Importer. -/
  Importer : Option ResourceImporter

end schema

/-! ## The resource -/

/-- Go `resourceCloudPluginInstallationCreate`. -/
def resourceCloudPluginInstallationCreate (d : schema.ResourceData) (client : Client) : Run :=
  let stackSlug := d.Get "stack_slug"
  let pluginSlug := d.Get "slug"
  let pluginVersion := d.Get "version"
  let err := (client.InstallCloudPlugin stackSlug pluginSlug pluginVersion).2
  let calls := [Call.InstallCloudPlugin stackSlug pluginSlug pluginVersion]
  match err with
  | some e => { d := d, calls := calls, logs := [], ret := Ret.returned (diag.FromErr (some e)) }
  | none =>
    { d := d.SetId (stackSlug ++ "_" ++ pluginSlug), calls := calls, logs := [],
      ret := Ret.returned [] }

/-- Go `resourceCloudPluginInstallationRead`. -/
def resourceCloudPluginInstallationRead (d : schema.ResourceData) (client : Client) : Run :=
  let splitID := strings.SplitN d.Id "_" 2
  match splitID[0]?, splitID[1]? with
  | none, _ =>
    { d := d, calls := [], logs := [], ret := Ret.panicked (Panic.indexOutOfRange 0 splitID.length) }
  | some _, none =>
    { d := d, calls := [], logs := [], ret := Ret.panicked (Panic.indexOutOfRange 1 splitID.length) }
  | some stackSlug, some pluginSlug =>
    let calls := [Call.GetCloudPluginInstallation stackSlug pluginSlug]
    match client.GetCloudPluginInstallation stackSlug pluginSlug with
    | (_, some err) =>
      if strings.HasPrefix err.Error "status: 404" then
        { d := d.SetId "", calls := calls,
          logs := ["[WARN] removing plugin " ++ pluginSlug
                    ++ " from state because it no longer exists in stack " ++ stackSlug],
          ret := Ret.returned [] }
      else
        { d := d, calls := calls, logs := [], ret := Ret.returned (diag.FromErr (some err)) }
    | (none, none) =>
      { d := d, calls := calls, logs := [], ret := Ret.panicked Panic.nilPointerDereference }
    | (some installation, none) =>
      let d := d.Set "stack_slug" installation.InstanceSlug
      let d := d.Set "slug" installation.PluginSlug
      let d := d.Set "version" installation.Version
      { d := d, calls := calls, logs := [], ret := Ret.returned [] }

/-- Go `resourceCloudPluginInstallationDelete`. -/
def resourceCloudPluginInstallationDelete (d : schema.ResourceData) (client : Client) : Run :=
  let splitID := strings.SplitN d.Id "_" 2
  match splitID[0]?, splitID[1]? with
  | none, _ =>
    { d := d, calls := [], logs := [], ret := Ret.panicked (Panic.indexOutOfRange 0 splitID.length) }
  | some _, none =>
    { d := d, calls := [], logs := [], ret := Ret.panicked (Panic.indexOutOfRange 1 splitID.length) }
  | some stackSlug, some pluginSlug =>
    let err := client.UninstallCloudPlugin stackSlug pluginSlug
    { d := d, calls := [Call.UninstallCloudPlugin stackSlug pluginSlug], logs := [],
      ret := Ret.returned (diag.FromErr err) }

/-- Go `ResourceCloudPluginInstallation`. -/
def ResourceCloudPluginInstallation : schema.Resource :=
  { Description := "\nManages Grafana Cloud Plugin Installations.\n\n* [Plugin Catalog](https://grafana.com/grafana/plugins/)\n",
    Schema := [
      ("stack_slug",
        { Description := "The stack id to which the plugin should be installed.",
          Type_ := schema.ValueType.TypeString,
          Required := true,
          ForceNew := true }),
      ("slug",
        { Description := "Slug of the plugin to be installed.",
          Type_ := schema.ValueType.TypeString,
          Required := true,
          ForceNew := true }),
      ("version",
        { Description := "Version of the plugin to be installed.",
          Type_ := schema.ValueType.TypeString,
          Required := true,
          ForceNew := true })],
    CreateContext := some resourceCloudPluginInstallationCreate,
    ReadContext := some resourceCloudPluginInstallationRead,
    UpdateContext := none,
    DeleteContext := some resourceCloudPluginInstallationDelete,
    Importer := some { StateContext := schema.ImportStatePassthroughContext } }

/-! ## Sample inputs -/

/-- Resource data with the given id and the given values of the three fields. -/
def sampleData (id stackSlug slug version : String) : schema.ResourceData :=
  { id := id,
    attrs := fun k =>
      if k = "stack_slug" then stackSlug
      else if k = "slug" then slug
      else if k = "version" then version
      else "" }

/-- A client that gives the same answer whatever the arguments: `answer` to an install or a
get, `uninstall` to an uninstall. -/
def sampleClient (answer : Option CloudPluginInstallation × Option error)
    (uninstall : Option error) : Client :=
  { InstallCloudPlugin := fun _ _ _ => answer,
    GetCloudPluginInstallation := fun _ _ => answer,
    UninstallCloudPlugin := fun _ _ => uninstall }

/-- An installation as the client reports it. -/
def sampleInstallation : CloudPluginInstallation :=
  { ID := 1,
    InstanceID := 2,
    InstanceURL := "https://mystack.grafana.net",
    InstanceSlug := "mystack",
    PluginID := 3,
    PluginSlug := "grafana-clock-panel",
    Version := "1.3.1" }

/-! ## Properties of the string functions -/

namespace strings

/-- A string has byte length zero exactly when it has no character. -/
theorem utf8ByteSize_eq_zero_iff (s : String) : s.utf8ByteSize = 0 ↔ s.data = [] := by
  cases s with
  | mk l =>
    cases l with
    | nil => simp [String.utf8ByteSize, String.utf8ByteSize.go]
    | cons c cs =>
      have hc := Char.utf8Size_pos c
      simp only [String.utf8ByteSize, String.utf8ByteSize.go]
      constructor
      · intro h
        omega
      · intro h
        cases h

/-- One step of the search for a one-character separator. -/
theorem indexL_single_cons (c x : Char) (xs : List Char) :
    indexL [c] (x :: xs) = if c = x then some 0 else (indexL [c] xs).map (· + 1) := by
  by_cases hx : c = x
  · subst hx
    simp [indexL, List.isPrefixOf]
  · simp [indexL, List.isPrefixOf, hx]

/-- Searching for a one-character separator: not found exactly when the character is absent. -/
theorem indexL_single_eq_none (c : Char) (s : List Char) : indexL [c] s = none ↔ c ∉ s := by
  induction s with
  | nil => simp [indexL]
  | cons x xs ih =>
    rw [indexL_single_cons]
    by_cases hx : c = x
    · simp [hx]
    · simp [hx, ih]

/-- Searching for a one-character separator finds its first occurrence: the text before the
position found does not contain it, and the string is that text, the separator and the rest. -/
theorem indexL_single_eq_some (c : Char) (s : List Char) (m : Nat) (h : indexL [c] s = some m) :
    c ∉ s.take m ∧ s = s.take m ++ c :: s.drop (m + 1) := by
  induction s generalizing m with
  | nil => simp [indexL] at h
  | cons x xs ih =>
    rw [indexL_single_cons] at h
    by_cases hx : c = x
    · subst hx
      simp only [↓reduceIte, Option.some.injEq] at h
      subst h
      simp
    · simp only [hx, ↓reduceIte] at h
      cases hk : indexL [c] xs with
      | none => simp [hk] at h
      | some k =>
        simp only [hk, Option.map_some', Option.some.injEq] at h
        subst h
        obtain ⟨h1, h2⟩ := ih k hk
        refine ⟨?_, ?_⟩
        · simp [List.take_succ_cons, hx, h1]
        · simp only [List.take_succ_cons, List.drop_succ_cons, List.cons_append, List.cons.injEq,
            true_and]
          exact h2

/-- Searching for a one-character separator in `a ++ c :: b` with `c` absent from `a` finds
the position after `a`. -/
theorem indexL_single_append (c : Char) (a b : List Char) (h : c ∉ a) :
    indexL [c] (a ++ c :: b) = some a.length := by
  induction a with
  | nil => simp [indexL_single_cons]
  | cons x xs ih =>
    have hx : ¬ c = x := fun e => h (by simp [e])
    have hxs : c ∉ xs := fun e => h (by simp [e])
    simp [indexL_single_cons, hx, ih hxs]

/-- What `SplitN s "_" 2` computes: one cut at the first underscore, if there is one. -/
theorem SplitN_underscore_two (s : String) :
    SplitN s "_" 2 =
      match indexL ['_'] s.data with
      | none => [s]
      | some m => [String.mk (s.data.take m), String.mk (s.data.drop (m + 1))] := by
  have hsep : ¬ ("_" : String) = "" := by decide
  have hd : ("_" : String).data = ['_'] := rfl
  have h20 : ¬ ((2 : Int) = 0) := by decide
  have h2n : ¬ ((2 : Int) < 0) := by decide
  by_cases h0 : s.data = []
  · have hs : s = String.mk [] := String.ext h0
    subst hs
    decide
  · have hz : s.utf8ByteSize ≠ 0 := fun e => h0 ((utf8ByteSize_eq_zero_iff s).mp e)
    have hn : ¬ ((2 : Int) > (s.utf8ByteSize : Int) + 1) := by omega
    have h1 : ((2 : Int) - 1).toNat = 1 := by decide
    unfold SplitN genSplit
    simp only [h20, hsep, h2n, hn, hd, ↓reduceIte, h1]
    cases hm : indexL ['_'] s.data with
    | none => simp [genSplitLoop, hm]
    | some m => simp [genSplitLoop, hm]

end strings

namespace strings

/-- Splitting `s ++ "_" ++ p` when `s` has no underscore gives back `s` and `p`. -/
theorem SplitN_join (s p : String) (h : '_' ∉ s.data) :
    SplitN (s ++ "_" ++ p) "_" 2 = [s, p] := by
  have hdata : (s ++ "_" ++ p).data = s.data ++ '_' :: p.data := by
    simp [String.data_append]
  rw [SplitN_underscore_two, hdata, indexL_single_append '_' s.data p.data h]
  have hdrop : List.drop (s.data.length + 1) (s.data ++ '_' :: p.data) = p.data := by
    rw [List.drop_append_eq_append_drop]
    simp
  simp only [List.take_left', hdrop]

/-- An id without underscore is not cut. -/
theorem SplitN_of_not_mem (id : String) (h : '_' ∉ id.data) : SplitN id "_" 2 = [id] := by
  rw [SplitN_underscore_two, (indexL_single_eq_none '_' id.data).mpr h]

/-- An id with an underscore is cut in two at the first one. -/
theorem SplitN_of_mem (id : String) (h : '_' ∈ id.data) :
    ∃ a b : String, SplitN id "_" 2 = [a, b] ∧ a ++ "_" ++ b = id ∧ '_' ∉ a.data := by
  cases hm : indexL ['_'] id.data with
  | none => exact absurd h ((indexL_single_eq_none '_' id.data).mp hm)
  | some m =>
    obtain ⟨h1, h2⟩ := indexL_single_eq_some '_' id.data m hm
    refine ⟨String.mk (id.data.take m), String.mk (id.data.drop (m + 1)), ?_, ?_, h1⟩
    · rw [SplitN_underscore_two, hm]
    · apply String.ext
      simp only [String.data_append]
      simpa using h2.symm

/-- The split has a second element exactly when the id has an underscore. -/
theorem SplitN_length_iff (id : String) : 1 < (SplitN id "_" 2).length ↔ '_' ∈ id.data := by
  by_cases h : '_' ∈ id.data
  · obtain ⟨a, b, hab, _, _⟩ := SplitN_of_mem id h
    simp [hab, h]
  · simp [SplitN_of_not_mem id h, h]

/-- Go `strings.HasPrefix` holds exactly when the string is the prefix followed by some text. -/
theorem HasPrefix_iff (s pre : String) : HasPrefix s pre = true ↔ ∃ t : String, s = pre ++ t := by
  unfold HasPrefix
  simp only [ge_iff_le, Bool.and_eq_true, decide_eq_true_eq]
  constructor
  · rintro ⟨_, h2⟩
    refine ⟨String.mk (s.data.drop pre.data.length), String.ext ?_⟩
    rw [String.data_append]
    conv_lhs => rw [← List.take_append_drop pre.data.length s.data]
    rw [h2]
  · rintro ⟨t, rfl⟩
    simp [String.data_append]

end strings

/-! ## Which client call Read and Delete make -/

/-- When the id splits into a pair, Read calls the client once, on that pair, however the
client answers. -/
theorem read_calls_of_split (d : schema.ResourceData) (client : Client) (a b : String)
    (hsplit : strings.SplitN d.Id "_" 2 = [a, b]) :
    (resourceCloudPluginInstallationRead d client).calls
      = [Call.GetCloudPluginInstallation a b] := by
  simp only [resourceCloudPluginInstallationRead, hsplit, List.getElem?_cons_zero,
    List.getElem?_cons_succ]
  split
  · split <;> rfl
  · rfl
  · rfl

/-- When the id splits into a pair, Delete calls the client once, on that pair. -/
theorem delete_calls_of_split (d : schema.ResourceData) (client : Client) (a b : String)
    (hsplit : strings.SplitN d.Id "_" 2 = [a, b]) :
    (resourceCloudPluginInstallationDelete d client).calls
      = [Call.UninstallCloudPlugin a b] := by
  simp only [resourceCloudPluginInstallationDelete, hsplit, List.getElem?_cons_zero,
    List.getElem?_cons_succ]

/-- When the id has no underscore, Read stops at `splitID[1]` before any client call. -/
theorem read_of_no_underscore (d : schema.ResourceData) (client : Client)
    (h : '_' ∉ d.Id.data) :
    resourceCloudPluginInstallationRead d client
      = { d := d, calls := [], logs := [], ret := Ret.panicked (Panic.indexOutOfRange 1 1) } := by
  simp [resourceCloudPluginInstallationRead, strings.SplitN_of_not_mem d.Id h]

/-- When the id has no underscore, Delete stops at `splitID[1]` before any client call. -/
theorem delete_of_no_underscore (d : schema.ResourceData) (client : Client)
    (h : '_' ∉ d.Id.data) :
    resourceCloudPluginInstallationDelete d client
      = { d := d, calls := [], logs := [], ret := Ret.panicked (Panic.indexOutOfRange 1 1) } := by
  simp [resourceCloudPluginInstallationDelete, strings.SplitN_of_not_mem d.Id h]

/-- When the id splits into a pair, Read does not fail on an index. -/
theorem read_no_index_panic_of_split (d : schema.ResourceData) (client : Client) (a b : String)
    (hsplit : strings.SplitN d.Id "_" 2 = [a, b]) (i n : Nat) :
    (resourceCloudPluginInstallationRead d client).ret
      ≠ Ret.panicked (Panic.indexOutOfRange i n) := by
  simp only [resourceCloudPluginInstallationRead, hsplit, List.getElem?_cons_zero,
    List.getElem?_cons_succ]
  split
  · split <;> simp
  · simp
  · simp

/-- When the id splits into a pair, Delete does not fail at all. -/
theorem delete_no_panic_of_split (d : schema.ResourceData) (client : Client) (a b : String)
    (hsplit : strings.SplitN d.Id "_" 2 = [a, b]) (p : Panic) :
    (resourceCloudPluginInstallationDelete d client).ret ≠ Ret.panicked p := by
  simp [resourceCloudPluginInstallationDelete, hsplit]

/-- The id a successful Create stores. -/
theorem create_stores_id (d : schema.ResourceData) (client : Client)
    (hok : (client.InstallCloudPlugin (d.Get "stack_slug") (d.Get "slug") (d.Get "version")).2
      = none) :
    (resourceCloudPluginInstallationCreate d client).d.Id
      = d.Get "stack_slug" ++ "_" ++ d.Get "slug" := by
  simp only [resourceCloudPluginInstallationCreate, hok]
  rfl

/-- A get call that Read made was made on the pair the id splits into. -/
theorem split_of_read_call (d : schema.ResourceData) (client : Client) (a b : String)
    (hcall : Call.GetCloudPluginInstallation a b
      ∈ (resourceCloudPluginInstallationRead d client).calls) :
    strings.SplitN d.Id "_" 2 = [a, b] := by
  by_cases h : '_' ∈ d.Id.data
  · obtain ⟨x, y, hxy, _, _⟩ := strings.SplitN_of_mem d.Id h
    rw [read_calls_of_split d client x y hxy] at hcall
    simp only [List.mem_singleton, Call.GetCloudPluginInstallation.injEq] at hcall
    rw [hcall.1, hcall.2]
    exact hxy
  · rw [read_of_no_underscore d client h] at hcall
    simp at hcall

/-! ## Create -/

/-- C3: when the install call returns a nil error, Create has made exactly one client call,
`InstallCloudPlugin` with the values of `stack_slug`, `slug` and `version` in that order, the
resource id is `stack_slug ++ "_" ++ slug` (the rest of the resource data is untouched), and
no diagnostics are returned; the id does not depend on the version: with any other value of
`version` a successful Create stores the same id. -/
theorem create_success (d : schema.ResourceData) (client : Client)
    (hok : (client.InstallCloudPlugin (d.Get "stack_slug") (d.Get "slug") (d.Get "version")).2
      = none) :
    (resourceCloudPluginInstallationCreate d client).calls
        = [Call.InstallCloudPlugin (d.Get "stack_slug") (d.Get "slug") (d.Get "version")] ∧
    (resourceCloudPluginInstallationCreate d client).d
        = d.SetId (d.Get "stack_slug" ++ "_" ++ d.Get "slug") ∧
    (resourceCloudPluginInstallationCreate d client).d.Id
        = d.Get "stack_slug" ++ "_" ++ d.Get "slug" ∧
    (resourceCloudPluginInstallationCreate d client).ret = Ret.returned [] ∧
    ∀ (v : String) (client2 : Client),
      (client2.InstallCloudPlugin (d.Get "stack_slug") (d.Get "slug") v).2 = none →
      (resourceCloudPluginInstallationCreate (d.Set "version" v) client2).d.Id
        = (resourceCloudPluginInstallationCreate d client).d.Id := by
  have hcreate : ∀ (d0 : schema.ResourceData) (c0 : Client),
      (c0.InstallCloudPlugin (d0.Get "stack_slug") (d0.Get "slug") (d0.Get "version")).2 = none →
      resourceCloudPluginInstallationCreate d0 c0 =
        { d := d0.SetId (d0.Get "stack_slug" ++ "_" ++ d0.Get "slug"),
          calls := [Call.InstallCloudPlugin (d0.Get "stack_slug") (d0.Get "slug")
            (d0.Get "version")],
          logs := [], ret := Ret.returned [] } := by
    intro d0 c0 h0
    simp only [resourceCloudPluginInstallationCreate, h0]
  rw [hcreate d client hok]
  refine ⟨rfl, rfl, rfl, rfl, ?_⟩
  intro v client2 h2
  have g1 : (d.Set "version" v).Get "stack_slug" = d.Get "stack_slug" := by
    simp [schema.ResourceData.Set, schema.ResourceData.Get]
  have g2 : (d.Set "version" v).Get "slug" = d.Get "slug" := by
    simp [schema.ResourceData.Set, schema.ResourceData.Get]
  have g3 : (d.Set "version" v).Get "version" = v := by
    simp [schema.ResourceData.Set, schema.ResourceData.Get]
  rw [hcreate (d.Set "version" v) client2 (by rw [g1, g2, g3]; exact h2)]
  simp only [schema.ResourceData.Id, schema.ResourceData.SetId, g1, g2]

/-- A concrete instance: a successful install of version 1.3.1 of
grafana-clock-panel on mystack. -/
theorem create_success_witness :
    (resourceCloudPluginInstallationCreate
        (sampleData "" "mystack" "grafana-clock-panel" "1.3.1")
        (sampleClient (some sampleInstallation, none) none)).calls
      = [Call.InstallCloudPlugin "mystack" "grafana-clock-panel" "1.3.1"] ∧
    (resourceCloudPluginInstallationCreate
        (sampleData "" "mystack" "grafana-clock-panel" "1.3.1")
        (sampleClient (some sampleInstallation, none) none)).d.Id
      = "mystack_grafana-clock-panel" :=
  have h := create_success (sampleData "" "mystack" "grafana-clock-panel" "1.3.1")
    (sampleClient (some sampleInstallation, none) none) rfl
  ⟨h.1, h.2.2.1⟩

/-- C4: when the install call returns an error, Create returns exactly one error diagnostic
whose summary is that error's message, and the resource data (its id and its fields) is what
it was before the call. -/
theorem create_failure_atomic (d : schema.ResourceData) (client : Client)
    (r : Option CloudPluginInstallation) (err : error)
    (herr : client.InstallCloudPlugin (d.Get "stack_slug") (d.Get "slug") (d.Get "version")
      = (r, some err)) :
    (resourceCloudPluginInstallationCreate d client).ret
        = Ret.returned [{ Severity := diag.Severity.Error, Summary := err.Error, Detail := "" }] ∧
    (resourceCloudPluginInstallationCreate d client).d = d ∧
    (resourceCloudPluginInstallationCreate d client).d.Id = d.Id := by
  simp only [resourceCloudPluginInstallationCreate, herr, diag.FromErr, and_self]

/-- A concrete instance: the install is refused with a 409. -/
theorem create_failure_atomic_witness :
    (resourceCloudPluginInstallationCreate
        (sampleData "" "mystack" "grafana-clock-panel" "1.3.1")
        (sampleClient (none, some { Error := "status: 409" }) none)).ret
      = Ret.returned [{ Severity := diag.Severity.Error, Summary := "status: 409", Detail := "" }] ∧
    (resourceCloudPluginInstallationCreate
        (sampleData "" "mystack" "grafana-clock-panel" "1.3.1")
        (sampleClient (none, some { Error := "status: 409" }) none)).d.Id = "" :=
  have h := create_failure_atomic (sampleData "" "mystack" "grafana-clock-panel" "1.3.1")
    (sampleClient (none, some { Error := "status: 409" }) none) none { Error := "status: 409" } rfl
  ⟨h.1, h.2.2⟩

/-! ## Read -/

/-- C1: for every resource data and client, whenever Read's call of
`GetCloudPluginInstallation` (on whatever pair Read made it) returns an error whose message
is `"status: 404"` followed by anything, Read sets the resource id to the empty string,
leaving the fields as they are, and returns no diagnostics. -/
theorem read_not_found_clears_id (d : schema.ResourceData) (client : Client)
    (stackSlug pluginSlug : String) (r : Option CloudPluginInstallation) (err : error)
    (rest : String)
    (hcall : Call.GetCloudPluginInstallation stackSlug pluginSlug
      ∈ (resourceCloudPluginInstallationRead d client).calls)
    (hget : client.GetCloudPluginInstallation stackSlug pluginSlug = (r, some err))
    (h404 : err.Error = "status: 404" ++ rest) :
    (resourceCloudPluginInstallationRead d client).d.Id = "" ∧
    (resourceCloudPluginInstallationRead d client).d = d.SetId "" ∧
    (resourceCloudPluginInstallationRead d client).ret = Ret.returned [] := by
  have hsplit := split_of_read_call d client stackSlug pluginSlug hcall
  have hp : strings.HasPrefix err.Error "status: 404" = true :=
    (strings.HasPrefix_iff _ _).mpr ⟨rest, h404⟩
  simp only [resourceCloudPluginInstallationRead, hsplit, List.getElem?_cons_zero,
    List.getElem?_cons_succ, hget, hp, ↓reduceIte, and_true]
  rfl

/-- A concrete instance: the plugin was removed outside Terraform. -/
theorem read_not_found_clears_id_witness :
    (resourceCloudPluginInstallationRead
        (sampleData "mystack_grafana-clock-panel" "mystack" "grafana-clock-panel" "1.3.1")
        (sampleClient (none, some { Error := "status: 404, body: not found" }) none)).d.Id = "" ∧
    (resourceCloudPluginInstallationRead
        (sampleData "mystack_grafana-clock-panel" "mystack" "grafana-clock-panel" "1.3.1")
        (sampleClient (none, some { Error := "status: 404, body: not found" }) none)).ret
      = Ret.returned [] :=
  have h := read_not_found_clears_id
    (sampleData "mystack_grafana-clock-panel" "mystack" "grafana-clock-panel" "1.3.1")
    (sampleClient (none, some { Error := "status: 404, body: not found" }) none)
    "mystack" "grafana-clock-panel" none { Error := "status: 404, body: not found" }
    ", body: not found" (by decide) rfl (by decide)
  ⟨h.1, h.2.2⟩

/-- C5: for every resource data and client, whenever Read's call of
`GetCloudPluginInstallation` (on whatever pair Read made it) returns an error whose message
does not begin with `"status: 404"`, Read returns exactly one error diagnostic whose summary
is that error's message, and the resource data is unchanged: the id and the fields
`stack_slug`, `slug` and `version` are what they were. -/
theorem read_other_error_surfaced (d : schema.ResourceData) (client : Client)
    (stackSlug pluginSlug : String) (r : Option CloudPluginInstallation) (err : error)
    (hcall : Call.GetCloudPluginInstallation stackSlug pluginSlug
      ∈ (resourceCloudPluginInstallationRead d client).calls)
    (hget : client.GetCloudPluginInstallation stackSlug pluginSlug = (r, some err))
    (hother : ∀ rest : String, err.Error ≠ "status: 404" ++ rest) :
    (resourceCloudPluginInstallationRead d client).ret
        = Ret.returned [{ Severity := diag.Severity.Error, Summary := err.Error, Detail := "" }] ∧
    (resourceCloudPluginInstallationRead d client).d = d ∧
    (resourceCloudPluginInstallationRead d client).d.Id = d.Id ∧
    (resourceCloudPluginInstallationRead d client).d.Get "stack_slug" = d.Get "stack_slug" ∧
    (resourceCloudPluginInstallationRead d client).d.Get "slug" = d.Get "slug" ∧
    (resourceCloudPluginInstallationRead d client).d.Get "version" = d.Get "version" := by
  have hsplit := split_of_read_call d client stackSlug pluginSlug hcall
  have hp : strings.HasPrefix err.Error "status: 404" = false := by
    cases hb : strings.HasPrefix err.Error "status: 404" with
    | false => rfl
    | true =>
      obtain ⟨t, ht⟩ := (strings.HasPrefix_iff _ _).mp hb
      exact absurd ht (hother t)
  simp only [resourceCloudPluginInstallationRead, hsplit, List.getElem?_cons_zero,
    List.getElem?_cons_succ, hget, hp, diag.FromErr, and_self]
  simp

/-- A concrete instance: the API answers 500. -/
theorem read_other_error_surfaced_witness :
    (resourceCloudPluginInstallationRead
        (sampleData "mystack_grafana-clock-panel" "mystack" "grafana-clock-panel" "1.3.1")
        (sampleClient (none, some { Error := "status: 500" }) none)).ret
      = Ret.returned [{ Severity := diag.Severity.Error, Summary := "status: 500", Detail := "" }] ∧
    (resourceCloudPluginInstallationRead
        (sampleData "mystack_grafana-clock-panel" "mystack" "grafana-clock-panel" "1.3.1")
        (sampleClient (none, some { Error := "status: 500" }) none)).d.Id
      = "mystack_grafana-clock-panel" :=
  have h := read_other_error_surfaced
    (sampleData "mystack_grafana-clock-panel" "mystack" "grafana-clock-panel" "1.3.1")
    (sampleClient (none, some { Error := "status: 500" }) none)
    "mystack" "grafana-clock-panel" none { Error := "status: 500" } (by decide) rfl
    (fun rest h =>
      absurd ((strings.HasPrefix_iff "status: 500" "status: 404").mpr ⟨rest, h⟩) (by decide))
  ⟨h.1, h.2.2.1⟩

/-- C8: when the id splits into the pair `(stackSlug, pluginSlug)` and
`GetCloudPluginInstallation` on that pair returns an installation and a nil error, Read has
made exactly one client call, that get on that pair; afterwards `stack_slug` is the
response's `InstanceSlug`, `slug` its `PluginSlug` and `version` its `Version`, the resource
id is unchanged, and no diagnostics are returned. -/
theorem read_success_maps_response (d : schema.ResourceData) (client : Client)
    (stackSlug pluginSlug : String) (installation : CloudPluginInstallation)
    (hsplit : strings.SplitN d.Id "_" 2 = [stackSlug, pluginSlug])
    (hget : client.GetCloudPluginInstallation stackSlug pluginSlug = (some installation, none)) :
    (resourceCloudPluginInstallationRead d client).calls
        = [Call.GetCloudPluginInstallation stackSlug pluginSlug] ∧
    (resourceCloudPluginInstallationRead d client).d.Get "stack_slug"
        = installation.InstanceSlug ∧
    (resourceCloudPluginInstallationRead d client).d.Get "slug" = installation.PluginSlug ∧
    (resourceCloudPluginInstallationRead d client).d.Get "version" = installation.Version ∧
    (resourceCloudPluginInstallationRead d client).d.Id = d.Id ∧
    (resourceCloudPluginInstallationRead d client).ret = Ret.returned [] := by
  simp only [resourceCloudPluginInstallationRead, hsplit, List.getElem?_cons_zero,
    List.getElem?_cons_succ, hget, true_and, and_true]
  simp [schema.ResourceData.Get, schema.ResourceData.Set, schema.ResourceData.Id]

/-- A concrete instance: the state holds version 1.0.0, the API reports
1.3.1. -/
theorem read_success_maps_response_witness :
    (resourceCloudPluginInstallationRead
        (sampleData "mystack_grafana-clock-panel" "mystack" "grafana-clock-panel" "1.0.0")
        (sampleClient (some sampleInstallation, none) none)).calls
      = [Call.GetCloudPluginInstallation "mystack" "grafana-clock-panel"] ∧
    (resourceCloudPluginInstallationRead
        (sampleData "mystack_grafana-clock-panel" "mystack" "grafana-clock-panel" "1.0.0")
        (sampleClient (some sampleInstallation, none) none)).d.Get "version" = "1.3.1" :=
  have h := read_success_maps_response
    (sampleData "mystack_grafana-clock-panel" "mystack" "grafana-clock-panel" "1.0.0")
    (sampleClient (some sampleInstallation, none) none)
    "mystack" "grafana-clock-panel" sampleInstallation (by decide) rfl
  ⟨h.1, h.2.2.2.1⟩

/-! ## Delete -/

/-- C6, as stated, fails: on the id `mystack`, which has no underscore and which the
passthrough importer hands over as it is, Delete makes no client call at all and stops with
"index out of range [1] with length 1"; it returns no diagnostics although the client would
have answered the uninstall with an error.  So it is not true of every resource data that
Delete makes exactly one uninstall call. -/
theorem delete_without_underscore_makes_no_call :
    schema.ImportStatePassthroughContext (sampleData "mystack" "" "" "")
      = ([sampleData "mystack" "" "" ""], none) ∧
    strings.SplitN (sampleData "mystack" "" "" "").Id "_" 2 = ["mystack"] ∧
    (resourceCloudPluginInstallationDelete (sampleData "mystack" "" "" "")
        (sampleClient (none, none) (some { Error := "status: 500" }))).calls = [] ∧
    (resourceCloudPluginInstallationDelete (sampleData "mystack" "" "" "")
        (sampleClient (none, none) (some { Error := "status: 500" }))).ret
      = Ret.panicked (Panic.indexOutOfRange 1 1) ∧
    (¬ ∃ diags : diag.Diagnostics,
      (resourceCloudPluginInstallationDelete (sampleData "mystack" "" "" "")
        (sampleClient (none, none) (some { Error := "status: 500" }))).ret
        = Ret.returned diags) ∧
    ¬ ∀ (d : schema.ResourceData) (client : Client), ∃ a b : String,
      (resourceCloudPluginInstallationDelete d client).calls
        = [Call.UninstallCloudPlugin a b] := by
  have hcalls : (resourceCloudPluginInstallationDelete (sampleData "mystack" "" "" "")
      (sampleClient (none, none) (some { Error := "status: 500" }))).calls = [] := by
    decide
  have hret : (resourceCloudPluginInstallationDelete (sampleData "mystack" "" "" "")
      (sampleClient (none, none) (some { Error := "status: 500" }))).ret
        = Ret.panicked (Panic.indexOutOfRange 1 1) := by
    decide
  refine ⟨rfl, by decide, hcalls, hret, ?_, ?_⟩
  · rintro ⟨diags, h⟩
    rw [hret] at h
    cases h
  · intro hall
    obtain ⟨a, b, h⟩ := hall (sampleData "mystack" "" "" "")
      (sampleClient (none, none) (some { Error := "status: 500" }))
    rw [hcalls] at h
    cases h

/-- C6, amended: for every resource data whose id splits into a pair
`(stackSlug, pluginSlug)`, that is whose id contains an underscore, Delete makes exactly one
client call, `UninstallCloudPlugin` on that pair, and returns what `diag.FromErr` makes of
its answer: no diagnostics for a nil error, and for every non-nil error, whatever its message
(one beginning with `"status: 404"` included), exactly one error diagnostic whose summary is
that message; so Delete returns diagnostics if and only if the uninstall call returned an
error. -/
theorem delete_diagnostics_iff_error (d : schema.ResourceData) (client : Client)
    (stackSlug pluginSlug : String)
    (hsplit : strings.SplitN d.Id "_" 2 = [stackSlug, pluginSlug]) :
    (resourceCloudPluginInstallationDelete d client).calls
        = [Call.UninstallCloudPlugin stackSlug pluginSlug] ∧
    (client.UninstallCloudPlugin stackSlug pluginSlug = none →
      (resourceCloudPluginInstallationDelete d client).ret = Ret.returned []) ∧
    (∀ err : error, client.UninstallCloudPlugin stackSlug pluginSlug = some err →
      (resourceCloudPluginInstallationDelete d client).ret
        = Ret.returned [{ Severity := diag.Severity.Error, Summary := err.Error, Detail := "" }]) ∧
    (∃ diags : diag.Diagnostics,
      (resourceCloudPluginInstallationDelete d client).ret = Ret.returned diags ∧
      (diags ≠ [] ↔ client.UninstallCloudPlugin stackSlug pluginSlug ≠ none)) := by
  simp only [resourceCloudPluginInstallationDelete, hsplit, List.getElem?_cons_zero,
    List.getElem?_cons_succ, true_and]
  refine ⟨?_, ?_, ?_⟩
  · intro h
    simp [h, diag.FromErr]
  · intro err h
    simp [h, diag.FromErr]
  · refine ⟨diag.FromErr (client.UninstallCloudPlugin stackSlug pluginSlug), rfl, ?_⟩
    cases client.UninstallCloudPlugin stackSlug pluginSlug <;> simp [diag.FromErr]

/-- A concrete instance: the plugin is already gone and the API
answers 404, which Delete reports as an error. -/
theorem delete_diagnostics_iff_error_witness :
    (resourceCloudPluginInstallationDelete
        (sampleData "mystack_grafana-clock-panel" "mystack" "grafana-clock-panel" "1.3.1")
        (sampleClient (none, none) (some { Error := "status: 404" }))).calls
      = [Call.UninstallCloudPlugin "mystack" "grafana-clock-panel"] ∧
    (resourceCloudPluginInstallationDelete
        (sampleData "mystack_grafana-clock-panel" "mystack" "grafana-clock-panel" "1.3.1")
        (sampleClient (none, none) (some { Error := "status: 404" }))).ret
      = Ret.returned [{ Severity := diag.Severity.Error, Summary := "status: 404", Detail := "" }] :=
  have h := delete_diagnostics_iff_error
    (sampleData "mystack_grafana-clock-panel" "mystack" "grafana-clock-panel" "1.3.1")
    (sampleClient (none, none) (some { Error := "status: 404" }))
    "mystack" "grafana-clock-panel" (by decide)
  ⟨h.1, h.2.2.1 { Error := "status: 404" } rfl⟩

/-! ## The composite id -/

/-- C2, as stated, fails: Create for stack slug `a_b` and plugin slug `c` succeeds and stores
the id `a_b_c`, from which Read and Delete obtain the pair (`a`, `b_c`) and call the client on
it, not on (`a_b`, `c`). -/
theorem composite_id_split_mismatch :
    (resourceCloudPluginInstallationCreate (sampleData "" "a_b" "c" "1.0.0")
        (sampleClient (some sampleInstallation, none) none)).ret = Ret.returned [] ∧
    (resourceCloudPluginInstallationCreate (sampleData "" "a_b" "c" "1.0.0")
        (sampleClient (some sampleInstallation, none) none)).calls
      = [Call.InstallCloudPlugin "a_b" "c" "1.0.0"] ∧
    (resourceCloudPluginInstallationCreate (sampleData "" "a_b" "c" "1.0.0")
        (sampleClient (some sampleInstallation, none) none)).d.Id = "a_b_c" ∧
    strings.SplitN "a_b_c" "_" 2 = ["a", "b_c"] ∧
    (resourceCloudPluginInstallationRead
        (resourceCloudPluginInstallationCreate (sampleData "" "a_b" "c" "1.0.0")
          (sampleClient (some sampleInstallation, none) none)).d
        (sampleClient (some sampleInstallation, none) none)).calls
      = [Call.GetCloudPluginInstallation "a" "b_c"] ∧
    (resourceCloudPluginInstallationDelete
        (resourceCloudPluginInstallationCreate (sampleData "" "a_b" "c" "1.0.0")
          (sampleClient (some sampleInstallation, none) none)).d
        (sampleClient (some sampleInstallation, none) none)).calls
      = [Call.UninstallCloudPlugin "a" "b_c"] ∧
    (("a", "b_c") : String × String) ≠ ("a_b", "c") := by
  decide

/-- C2, amended: for every stack slug without underscore and every plugin slug, the id a
successful Create stores splits into exactly that stack slug and that plugin slug, and Read
and Delete on the resulting resource data call the client on exactly that pair, whatever
client they are given. -/
theorem composite_id_identifies_installation (d : schema.ResourceData)
    (client clientRead clientDelete : Client)
    (hstack : '_' ∉ (d.Get "stack_slug").data)
    (hok : (client.InstallCloudPlugin (d.Get "stack_slug") (d.Get "slug") (d.Get "version")).2
      = none) :
    strings.SplitN (resourceCloudPluginInstallationCreate d client).d.Id "_" 2
        = [d.Get "stack_slug", d.Get "slug"] ∧
    (resourceCloudPluginInstallationRead
        (resourceCloudPluginInstallationCreate d client).d clientRead).calls
      = [Call.GetCloudPluginInstallation (d.Get "stack_slug") (d.Get "slug")] ∧
    (resourceCloudPluginInstallationDelete
        (resourceCloudPluginInstallationCreate d client).d clientDelete).calls
      = [Call.UninstallCloudPlugin (d.Get "stack_slug") (d.Get "slug")] := by
  have hsplit : strings.SplitN (resourceCloudPluginInstallationCreate d client).d.Id "_" 2
      = [d.Get "stack_slug", d.Get "slug"] := by
    rw [create_stores_id d client hok]
    exact strings.SplitN_join _ _ hstack
  exact ⟨hsplit, read_calls_of_split _ _ _ _ hsplit, delete_calls_of_split _ _ _ _ hsplit⟩

/-- A concrete instance: stack `mystack`, plugin `my_plugin`
(an underscore in the plugin slug does no harm). -/
theorem composite_id_identifies_installation_witness :
    (resourceCloudPluginInstallationRead
        (resourceCloudPluginInstallationCreate (sampleData "" "mystack" "my_plugin" "1.0.0")
          (sampleClient (some sampleInstallation, none) none)).d
        (sampleClient (none, some { Error := "status: 500" }) none)).calls
      = [Call.GetCloudPluginInstallation "mystack" "my_plugin"] ∧
    (resourceCloudPluginInstallationDelete
        (resourceCloudPluginInstallationCreate (sampleData "" "mystack" "my_plugin" "1.0.0")
          (sampleClient (some sampleInstallation, none) none)).d
        (sampleClient (none, none) none)).calls
      = [Call.UninstallCloudPlugin "mystack" "my_plugin"] :=
  (composite_id_identifies_installation (sampleData "" "mystack" "my_plugin" "1.0.0")
    (sampleClient (some sampleInstallation, none) none)
    (sampleClient (none, some { Error := "status: 500" }) none)
    (sampleClient (none, none) none) (by decide) rfl).2

/-- C9: Read and Delete cut the id at its first underscore only.  For every `s` without
underscore and every `p` (with underscores, or empty, or neither), `SplitN (s ++ "_" ++ p)
"_" 2` is exactly `[s, p]`.  For every id that contains an underscore, the split has exactly
two parts; rejoined with `"_"` they give back the id, the first part contains no underscore,
and these two parts are the arguments of the single client call Read makes and of the single
client call Delete makes. -/
theorem split_at_first_underscore :
    (∀ s p : String, '_' ∉ s.data → strings.SplitN (s ++ "_" ++ p) "_" 2 = [s, p]) ∧
    (∀ id : String, '_' ∈ id.data →
      ∃ a b : String, strings.SplitN id "_" 2 = [a, b] ∧ a ++ "_" ++ b = id ∧ '_' ∉ a.data ∧
        ∀ (d : schema.ResourceData) (client : Client), d.Id = id →
          (resourceCloudPluginInstallationRead d client).calls
              = [Call.GetCloudPluginInstallation a b] ∧
          (resourceCloudPluginInstallationDelete d client).calls
              = [Call.UninstallCloudPlugin a b]) := by
  refine ⟨strings.SplitN_join, ?_⟩
  intro id hid
  obtain ⟨a, b, hab, hjoin, ha⟩ := strings.SplitN_of_mem id hid
  refine ⟨a, b, hab, hjoin, ha, ?_⟩
  intro d client hd
  subst hd
  exact ⟨read_calls_of_split _ _ _ _ hab, delete_calls_of_split _ _ _ _ hab⟩

/-- A concrete instance: a plugin slug with underscores, and an empty
one. -/
theorem split_at_first_underscore_witness :
    strings.SplitN ("mystack" ++ "_" ++ "my_own_plugin") "_" 2 = ["mystack", "my_own_plugin"] ∧
    strings.SplitN ("mystack" ++ "_" ++ "") "_" 2 = ["mystack", ""] ∧
    ∃ a b : String, strings.SplitN "a_b_c" "_" 2 = [a, b] ∧ a ++ "_" ++ b = "a_b_c" ∧
      '_' ∉ a.data :=
  ⟨split_at_first_underscore.1 "mystack" "my_own_plugin" (by decide),
   split_at_first_underscore.1 "mystack" "" (by decide),
   (split_at_first_underscore.2 "a_b_c" (by decide)).imp fun _ h =>
     h.imp fun _ hb => ⟨hb.1, hb.2.1, hb.2.2.1⟩⟩

/-! ## Index safety -/

/-- C10: `splitID[1]` is in bounds exactly when the id contains an underscore.  The id a
successful Create stores contains one, and Read and Delete on the resulting resource data
never fail on an index.  The passthrough importer hands any id over as it is, without error
(for instance `mystack` or the empty id, which contain no underscore); and on an id without
underscore the split has a single element, and Read and Delete stop with "index out of range
[1] with length 1" having made no client call and changed nothing. -/
theorem index_in_bounds_iff_underscore :
    (∀ id : String, 1 < (strings.SplitN id "_" 2).length ↔ '_' ∈ id.data) ∧
    (∀ (d : schema.ResourceData) (client : Client),
      (client.InstallCloudPlugin (d.Get "stack_slug") (d.Get "slug") (d.Get "version")).2 = none →
      '_' ∈ (resourceCloudPluginInstallationCreate d client).d.Id.data ∧
      ∀ (client2 : Client) (i n : Nat),
        (resourceCloudPluginInstallationRead
            (resourceCloudPluginInstallationCreate d client).d client2).ret
          ≠ Ret.panicked (Panic.indexOutOfRange i n) ∧
        (resourceCloudPluginInstallationDelete
            (resourceCloudPluginInstallationCreate d client).d client2).ret
          ≠ Ret.panicked (Panic.indexOutOfRange i n)) ∧
    (∀ d : schema.ResourceData, schema.ImportStatePassthroughContext d = ([d], none)) ∧
    ('_' ∉ ("mystack" : String).data ∧ '_' ∉ ("" : String).data) ∧
    (∀ (d : schema.ResourceData) (client : Client), '_' ∉ d.Id.data →
      strings.SplitN d.Id "_" 2 = [d.Id] ∧
      resourceCloudPluginInstallationRead d client
        = { d := d, calls := [], logs := [],
            ret := Ret.panicked (Panic.indexOutOfRange 1 1) } ∧
      resourceCloudPluginInstallationDelete d client
        = { d := d, calls := [], logs := [],
            ret := Ret.panicked (Panic.indexOutOfRange 1 1) }) := by
  refine ⟨strings.SplitN_length_iff, ?_, fun _ => rfl, ⟨by decide, by decide⟩, ?_⟩
  · intro d client hok
    have hid := create_stores_id d client hok
    have hmem : '_' ∈ (resourceCloudPluginInstallationCreate d client).d.Id.data := by
      rw [hid]
      simp [String.data_append]
    refine ⟨hmem, ?_⟩
    intro client2 i n
    obtain ⟨a, b, hab, _, _⟩ := strings.SplitN_of_mem _ hmem
    exact ⟨read_no_index_panic_of_split _ _ a b hab i n, delete_no_panic_of_split _ _ a b hab _⟩
  · intro d client h
    exact ⟨strings.SplitN_of_not_mem d.Id h, read_of_no_underscore d client h,
      delete_of_no_underscore d client h⟩

/-- A concrete instance: the id `mystack`, as an import would leave it, makes Read and
Delete stop at the index before any client call. -/
theorem index_in_bounds_iff_underscore_witness :
    (resourceCloudPluginInstallationRead (sampleData "mystack" "" "" "")
        (sampleClient (some sampleInstallation, none) none)).ret
      = Ret.panicked (Panic.indexOutOfRange 1 1) ∧
    (resourceCloudPluginInstallationRead (sampleData "mystack" "" "" "")
        (sampleClient (some sampleInstallation, none) none)).calls = [] ∧
    (resourceCloudPluginInstallationDelete (sampleData "mystack" "" "" "")
        (sampleClient (some sampleInstallation, none) none)).ret
      = Ret.panicked (Panic.indexOutOfRange 1 1) ∧
    (resourceCloudPluginInstallationDelete (sampleData "mystack" "" "" "")
        (sampleClient (some sampleInstallation, none) none)).calls = [] :=
  have h := index_in_bounds_iff_underscore.2.2.2.2 (sampleData "mystack" "" "" "")
    (sampleClient (some sampleInstallation, none) none) (by decide)
  ⟨by rw [h.2.1], by rw [h.2.1], by rw [h.2.2], by rw [h.2.2]⟩

/-! ## The schema -/

/-- C7: the schema has exactly the three fields `stack_slug`, `slug` and `version`, each
once; each is of type string, required, and forces a new resource on change; the resource
has its Create, Read and Delete callbacks and no Update callback. -/
theorem schema_contract :
    ResourceCloudPluginInstallation.Schema.map Prod.fst = ["stack_slug", "slug", "version"] ∧
    (ResourceCloudPluginInstallation.Schema.map Prod.fst).Nodup ∧
    (∀ entry ∈ ResourceCloudPluginInstallation.Schema,
      entry.2.Type_ = schema.ValueType.TypeString ∧ entry.2.Required = true ∧
        entry.2.ForceNew = true) ∧
    ResourceCloudPluginInstallation.CreateContext = some resourceCloudPluginInstallationCreate ∧
    ResourceCloudPluginInstallation.ReadContext = some resourceCloudPluginInstallationRead ∧
    ResourceCloudPluginInstallation.DeleteContext = some resourceCloudPluginInstallationDelete ∧
    ResourceCloudPluginInstallation.UpdateContext = none := by
  refine ⟨by decide, by decide, by decide, rfl, rfl, rfl, rfl⟩
